import Mathlib

/-!
Shallow embedding of the WikiBandits crawler (src/crawler.py, src/arms.py,
src/bandits.py).  Python strings are modelled as Lean strings, with the
Python string primitives re-implemented structurally on `List Char` so they
evaluate in the kernel; pandas frames are modelled as Lean lists of rows;
Python exceptions are modelled with `Option` and `Except`; real-valued
quantities (model estimates, epsilon, random draws) are modelled as `Rat`.
-/

/-- Python `s.split('/')[-1]`: the suffix of `s` after the last slash. -/
def lastSlashSegment (l : List Char) : List Char :=
  (l.reverse.takeWhile (fun c => c != '/')).reverse

/-- Python `s.replace('_',' ')`: a one-character replace is a character map. -/
def underscoreToSpace (l : List Char) : List Char :=
  l.map (fun c => if c == '_' then ' ' else c)

/-- `urlkey` (crawler.py lines 30-32): `url.split('/')[-1].replace('_',' ')`. -/
def urlkey (url : String) : String :=
  String.mk (underscoreToSpace (lastSlashSegment url.toList))

/-- Python `s.strip('/')`: drops leading and trailing slashes. -/
def stripSlashes (l : List Char) : List Char :=
  ((l.dropWhile (fun c => c == '/')).reverse.dropWhile (fun c => c == '/')).reverse

/-- Python `s.split('/')` (the full split; never returns an empty list). -/
def splitSlash : List Char → List (List Char)
  | [] => [[]]
  | c :: cs =>
      let r := splitSlash cs
      if c == '/' then [] :: r else (c :: r.headD []) :: r.tail

/-- Python `'/'.join(sections)`. -/
def joinSlash : List (List Char) → List Char
  | [] => []
  | [s] => s
  | s :: rest => s ++ '/' :: joinSlash rest

/-- `complete_url` (crawler.py lines 34-40): if the first section of the
slash-stripped url is `wiki`, prepend the wikipedia host; otherwise return
the url unchanged. -/
def complete_url (url : String) : String :=
  let sections := splitSlash (stripSlashes url.toList)
  if sections.headD [] == "wiki".toList then
    String.mk (joinSlash ("https://en.wikipedia.org".toList :: sections))
  else url

/-- Python prefix test `leadsWith p l` = `l.startswith(p)` on char lists. -/
def leadsWith : List Char → List Char → Bool
  | [], _ => true
  | _ :: _, [] => false
  | p :: ps, c :: cs => p == c && leadsWith ps cs

/-- Python substring test `pat in l` on char lists. -/
def containsSeq (pat : List Char) : List Char → Bool
  | [] => pat.isEmpty
  | c :: cs => leadsWith pat (c :: cs) || containsSeq pat cs

/-- `MAX_SIZE` (crawler.py line 23). -/
def MAX_SIZE : Nat := 1000000

/-- `MAX_PAGES` (bandits.py line 15). -/
def MAX_PAGES : Nat := 100

/-- A row of the `edges` frame (crawler.py line 81): a discovered link. -/
structure Edge where
  source : String
  target : String
deriving DecidableEq

/-- A row of the `nodes` frame (crawler.py line 82), indexed by `key`
(the pandas Series name, always `urlkey url`).  All payload columns are
optional: a missing value models a pandas NaN cell. -/
structure NodeRow where
  key : String
  url : Option String := none
  size : Option Nat := none
  linkage : Option Nat := none
  path : Option String := none
  estimate : Option Int := none
  reward : Option Int := none
deriving DecidableEq

/-- The observable outcome of a successful page fetch: the raw `href`
attributes of the anchor tags and the `content-length` header.  A failed
fetch (or a missing header, an unparsable page, ...) is modelled by
`Option.none` at the call site. -/
structure Page where
  hrefs : List String
  contentLength : Nat
deriving DecidableEq

/-- `SubjectLog` (crawler.py lines 62-83): node table, edge table and the
frontier queue `unexplored`. -/
structure SubjectLog where
  subject : String
  edges : List Edge
  nodes : List NodeRow
  unexplored : List String
deriving DecidableEq

/-- `SubjectLog.__init__` (crawler.py lines 79-83). -/
def SubjectLog.init (subject : String) : SubjectLog :=
  ⟨subject, [], [], []⟩

/-- The index of the `nodes` frame: the keys of the committed rows. -/
def nodeKeys (log : SubjectLog) : List String :=
  log.nodes.map (fun n => n.key)

/-- `SubjectLog.download` (crawler.py lines 84-107), with the `download`
context manager (lines 42-60) folded in.  A successful fetch filters the
anchors to those whose href contains the substring `/wiki/`, records one
edge per such link, and builds the node row named `urlkey url` with the
path, url, content-length and link count; the caller's `url_props` keyword
(in the source only ever `estimate`) is merged in.  Any failure is caught
by the blanket `except` and yields the empty row `pd.Series(name =
urlkey(url))`, dropping the props, with no links. -/
def SubjectLog.download (log : SubjectLog) (url : String) (estimate : Option Int)
    (fetch : Option Page) : NodeRow × List Edge :=
  match fetch with
  | some page =>
      let links := (page.hrefs.filter
          (fun h => containsSeq "/wiki/".toList h.toList)).map
        (fun h => Edge.mk url h)
      let path := "repos/" ++ log.subject ++ "/"
        ++ String.mk (lastSlashSegment url.toList) ++ ".html"
      (⟨urlkey url, some url, some page.contentLength, some links.length,
        some path, estimate, none⟩, links)
  | none => (⟨urlkey url, none, none, none, none, none, none⟩, [])

/-- The scanning loop of `SubjectLog.pop` (crawler.py lines 108-120):
drop frontier entries whose key is already a node key, return the first
survivor together with the rest of the queue; `none` models the
`EmptyQueue` exception. -/
def popAux (keys : List String) : List String → Option (String × List String)
  | [] => none
  | current :: rest =>
      if urlkey current ∈ keys then popAux keys rest
      else some (current, rest)

/-- `SubjectLog.pop` (crawler.py lines 108-120): the survivor is returned
in completed form and the consumed queue is written back. -/
def SubjectLog.pop (log : SubjectLog) : Option (String × SubjectLog) :=
  match popAux (nodeKeys log) log.unexplored with
  | none => none
  | some (current, rest) =>
      some (complete_url current, { log with unexplored := rest })

/-- `SubjectLog.add_url` (crawler.py lines 121-130).  With the download
flag the fetched links are appended to the edge table and their targets to
the frontier; either way the new row is appended to the node table
unconditionally (pandas `DataFrame.append` performs no duplicate-index
check). -/
def SubjectLog.add_url (log : SubjectLog) (url : String) (downloadFlag : Bool)
    (estimate : Option Int) (fetch : Option Page) : SubjectLog :=
  if downloadFlag then
    let nl := log.download url estimate fetch
    { log with
        edges := log.edges ++ nl.2,
        unexplored := log.unexplored ++ nl.2.map (fun e => e.target),
        nodes := log.nodes ++ [nl.1] }
  else
    { log with
        nodes := log.nodes ++ [⟨urlkey url, some url, none, none, none, estimate, none⟩] }

/-- `SubjectLog.linkage` (crawler.py lines 148-150): number of edges whose
target key equals the argument's key. -/
def SubjectLog.linkage (log : SubjectLog) (url : String) : Nat :=
  (log.edges.filter (fun e => urlkey e.target == urlkey url)).length

/-- Pandas `drop_duplicates` (keep the first occurrence). -/
def firstDedupAux (seen : List String) : List String → List String
  | [] => []
  | x :: xs =>
      if x ∈ seen then firstDedupAux seen xs
      else x :: firstDedupAux (x :: seen) xs

/-- Pandas `drop_duplicates` starting from nothing seen. -/
def firstDedup (l : List String) : List String := firstDedupAux [] l

/-- Insertion step of an insertion sort parameterised by a comparator. -/
def insertLe {α : Type} (le : α → α → Bool) (x : α) : List α → List α
  | [] => [x]
  | y :: ys => if le x y then x :: y :: ys else y :: insertLe le x ys

/-- Insertion sort parameterised by a comparator. -/
def isort {α : Type} (le : α → α → Bool) : List α → List α
  | [] => []
  | x :: xs => insertLe le x (isort le xs)

/-- Lexicographic order on char lists (Python string comparison). -/
def charListLe : List Char → List Char → Bool
  | [], _ => true
  | _ :: _, [] => false
  | a :: as, b :: bs => if a < b then true else if b < a then false else charListLe as bs

/-- Python string `<=`. -/
def strLe (a b : String) : Bool := charListLe a.toList b.toList

/-- Descending comparison on the count component (`sort_values(by='source',
ascending=False)` on the grouped counts; ties there are left in an
unspecified order by pandas' quicksort, and nothing downstream depends on
the tie order). -/
def cntGe (a b : String × Nat) : Bool := decide (b.2 ≤ a.2)

/-- `parents` of `pick_sibling` (crawler.py line 158): distinct sources of
edges whose target key matches the argument's key. -/
def parentsOf (log : SubjectLog) (url : String) : List String :=
  firstDedup ((log.edges.filter
    (fun e => urlkey e.target == urlkey url)).map (fun e => e.source))

/-- `siblings` of `pick_sibling` (crawler.py line 160): distinct targets of
edges whose source is a parent (the right-merge on `source`). -/
def siblingsOf (log : SubjectLog) (url : String) : List String :=
  firstDedup ((parentsOf log url).flatMap
    (fun p => (log.edges.filter (fun e => e.source == p)).map (fun e => e.target)))

/-- The inner merge of `pick_sibling` (crawler.py line 161): edges whose
target lies in the sibling set. -/
def matchedEdges (log : SubjectLog) (sibs : List String) : List Edge :=
  log.edges.filter (fun e => sibs.contains e.target)

/-- `groupby('target').count()` (crawler.py lines 161-163): one `(target,
in-degree)` pair per distinct matched target, group keys in ascending
order (pandas groupby sorts its keys). -/
def groupCounts (log : SubjectLog) (sibs : List String) : List (String × Nat) :=
  let m := matchedEdges log sibs
  (isort strLe (firstDedup (m.map (fun e => e.target)))).map
    (fun t => (t, (m.filter (fun e => e.target == t)).length))

/-- The in-degree of a raw target string in the edge table. -/
def targetCount (log : SubjectLog) (t : String) : Nat :=
  (log.edges.filter (fun e => e.target == t)).length

/-- `SubjectLog.pick_sibling` (crawler.py lines 151-168): sort the grouped
counts by in-degree descending, drop every row whose key (the row label
after `index.map(urlkey)`) occurs in `nodes.index.map(urlkey)`, and return
the completed url of the first remaining row (`incoming.url[0]`); `none`
models the exception raised on an empty frame. -/
def SubjectLog.pick_sibling (log : SubjectLog) (url : String) : Option String :=
  let sibs := siblingsOf log url
  let counted := isort cntGe (groupCounts log sibs)
  let dropped := counted.filter
    (fun p => !(((nodeKeys log).map urlkey).contains (urlkey p.1)))
  dropped.head?.map (fun p => complete_url p.1)


/-- `np.random.randint(low, high)` samples an integer uniformly from the
half-open interval `[low, high)`; an arbitrary natural seed `draw` selects
the sample.  In particular `randint 0 1 draw` is always `0`. -/
def randint (low high draw : Nat) : Nat := low + draw % (high - low)

/-- `Lefty.pick_arm` (bandits.py lines 62-66).  The greedy branch (taken
when the uniform draw `rand` exceeds `epsilon`) compares the classifier
arm's estimate against `0` (the constant estimate of `LameArm`); the
exploration branch evaluates `np.random.randint(0,1)`.  The torch-valued
estimate is abstracted as a rational parameter. -/
def Lefty.pick_arm (est0 : Rat) (epsilon rand : Rat) (draw : Nat) : Nat :=
  if rand > epsilon then (if est0 > 0 then 0 else 1) else randint 0 1 draw

/-- `Genealogist.pick_arm` (bandits.py lines 87-93): same epsilon-greedy
shape, comparing the two connector arms' estimates on their respective
candidate urls. -/
def Genealogist.pick_arm (est0 est1 : Rat) (epsilon rand : Rat) (draw : Nat) : Nat :=
  if rand > epsilon then (if est0 > est1 then 0 else 1) else randint 0 1 draw

/-- `PropsFetchError` (crawler.py lines 182-183). -/
inductive PropsFetchError where
  | mk
deriving DecidableEq

/-- `Classifier._evaluate` (arms.py lines 61-68): builds the feature pair
`[wiki_relevance(url,subject), wiki_size(url,max_size)]` and runs the
torch classifier on it.  Both feature lookups may raise `PropsFetchError`,
and nothing in the method catches it: the error propagates.  The oracle
results are passed in as `Except` values and the trained classifier is
abstracted as a function `net` on the feature pair. -/
def Classifier.evaluate (net : Rat × Rat → Rat × Rat)
    (relevance size : Except PropsFetchError Rat) :
    Except PropsFetchError (Rat × Rat) := do
  let r ← relevance
  let s ← size
  pure (net (r, s))

/-- `Connector._evaluate` (arms.py lines 128-141): the relevance feature is
replaced by the linkage z-score (a pure read of the log, abstracted here
as `linkageScore` since it goes through the float `ndtr`), and the size
probe is guarded: `size_score = 0` unless `wiki_size` succeeds, a
`PropsFetchError` being swallowed by the local `try/except`. -/
def Connector.evaluate (net : Rat × Rat → Rat × Rat) (linkageScore : Rat)
    (size : Except PropsFetchError Rat) : Rat × Rat :=
  let sizeScore := match size with
    | Except.ok s => s
    | Except.error _ => 0
  net (linkageScore, sizeScore)

/-- Modelled from the spec: the explore-then-commit policy "tracks running
mean reward and run count per arm".  The class `arms.LinearArm`
instantiated by `Crampy.__init__` and the per-arm attributes `runs` and
`mean` read by `Crampy.pick_arm` are not defined anywhere under src, so
the per-arm statistics are modelled from the spec's words. -/
structure ArmStats where
  runs : Nat
  mean : Rat
deriving DecidableEq

/-- The mutable state of a `Crampy` bandit (bandits.py lines 106-131):
two arms' statistics, the committed `winner`, and `current_arm`. -/
structure CrampyState where
  stats : ArmStats × ArmStats
  winner : Option Nat
  current_arm : Option Nat
deriving DecidableEq

/-- The commitment test of `Crampy.pick_arm` (bandits.py line 122):
`mean_a - mean_b > 4 * sqrt(2 * MAX_PAGES / (totalRuns + 1))`, stated
without the square root by squaring both sides, which is faithful because
the right-hand side is nonnegative. -/
def exceedsGap (a b : Rat) (totalRuns : Nat) : Bool :=
  decide (0 < a - b) &&
    decide (16 * (2 * (MAX_PAGES : Rat)) / ((totalRuns : Rat) + 1) < (a - b) ^ 2)

/-- `Crampy.pick_arm` (bandits.py lines 118-126): while no winner is
committed, commit to an arm whose mean beats the other by four Hoeffding
radii; return the winner if committed, a uniform draw from `[0,2)`
otherwise. -/
def Crampy.pick_arm (st : CrampyState) (draw : Nat) : Nat × CrampyState :=
  let total := st.stats.1.runs + st.stats.2.runs
  let w :=
    match st.winner with
    | none =>
        if exceedsGap st.stats.1.mean st.stats.2.mean total then some 0
        else if exceedsGap st.stats.2.mean st.stats.1.mean total then some 1
        else none
    | some i => some i
  (match w with
   | none => randint 0 2 draw
   | some i => i,
   { st with winner := w })

/-- `Crampy.action` (bandits.py lines 127-131): pick an arm and record it
as `current_arm` (the picked arm's own `action` mutates the log, not the
bandit state). -/
def Crampy.action (st : CrampyState) (draw : Nat) : CrampyState :=
  let p := Crampy.pick_arm st draw
  { p.2 with current_arm := some p.1 }

/-- Modelled from the spec: the committed arm's running statistics absorb
an observed reward (run count incremented, running mean updated). -/
def ArmStats.update (a : ArmStats) (x : Rat) : ArmStats :=
  ⟨a.runs + 1, (a.mean * (a.runs : Rat) + x) / ((a.runs : Rat) + 1)⟩

/-- `Crampy.reward` (bandits.py lines 116-117): delegates to the arm at
`current_arm`; spec-modelled update of that arm's statistics.  With no
current arm the Python indexing raises before mutating anything, so the
bandit state is left unchanged. -/
def Crampy.reward (st : CrampyState) (x : Rat) : CrampyState :=
  match st.current_arm with
  | some 0 => { st with stats := (st.stats.1.update x, st.stats.2) }
  | some _ => { st with stats := (st.stats.1, st.stats.2.update x) }
  | none => st

/-- The three mutating entry points of a `Crampy` bandit. -/
inductive CrampyOp where
  | pick (draw : Nat)
  | act (draw : Nat)
  | rew (x : Rat)

/-- Apply one entry point to the bandit state. -/
def CrampyOp.apply (st : CrampyState) : CrampyOp → CrampyState
  | CrampyOp.pick draw => (Crampy.pick_arm st draw).2
  | CrampyOp.act draw => Crampy.action st draw
  | CrampyOp.rew x => Crampy.reward st x

/-- Run a sequence of entry points from a state. -/
def runOps (st : CrampyState) : List CrampyOp → CrampyState
  | [] => st
  | op :: ops => runOps (op.apply st) ops

/-- The class names the arms module defines (src/arms.py: `Arm`,
`Classifier`, `LameArm`, `Pop`, `Connector`). -/
def armsModuleNames : List String :=
  ["Arm", "Classifier", "LameArm", "Pop", "Connector"]

/-- The attributes each arms class resolves (its own plus the inherited
ones), read off the class bodies in src/arms.py. -/
def armClassAttrs : String → List String
  | "Arm" => ["_parameters", "estimate", "action", "reward"]
  | "Classifier" =>
      ["_parameters", "estimate", "action", "reward",
       "classifier", "loss", "_evaluate", "_response"]
  | "LameArm" => ["_parameters", "estimate", "action", "reward"]
  | "Connector" =>
      ["_parameters", "estimate", "action", "reward",
       "classifier", "loss", "_evaluate", "_response", "log", "mode"]
  | _ => []

/-- The arm classes `Crampy.__init__` (bandits.py line 113) looks up in the
arms module. -/
def crampyInitArmClasses : List String := ["Classifier", "LinearArm"]

/-- The per-arm attributes `Crampy.pick_arm` (bandits.py lines 120-124)
reads on its arms. -/
def crampyPickArmAttrReads : List String := ["runs", "mean"]

/-- `Crampy.__init__` (bandits.py lines 112-115) as name resolution: it
succeeds only if every referenced arm class exists in the arms module.
The keyword arguments play no part in the lookup, so the outcome is the
same for every argument set. -/
def crampyConstruct (_kwargs : List (String × Int)) : Except String Unit :=
  if crampyInitArmClasses.all (fun c => armsModuleNames.contains c) then Except.ok ()
  else Except.error "AttributeError"

/-- The claim that no frontier entry survives the `pop` scan: every entry's
key is already a node key (the condition under which `pop` raises
`EmptyQueue`). -/
def allVisited (log : SubjectLog) : Prop :=
  ∀ e ∈ log.unexplored, urlkey e ∈ nodeKeys log

/-- Logs reachable from an empty log by `add_url` calls that respect the
documented caller obligation: a url is only added while its key is not yet
committed. -/
inductive GuardedAdds : SubjectLog → Prop where
  | init (s : String) : GuardedAdds (SubjectLog.init s)
  | step (log : SubjectLog) (url : String) (flag : Bool) (est : Option Int)
      (fetch : Option Page) : GuardedAdds log → urlkey url ∉ nodeKeys log →
      GuardedAdds (log.add_url url flag est fetch)

/-- Scenario of C3: node table containing exactly the key of `A`, frontier
`[A, B, A, C]`. -/
def scenarioC3 : SubjectLog :=
  ⟨"s", [], [⟨"A", none, none, none, none, none, none⟩], ["A", "B", "A", "C"]⟩

/-- Scenario of C5: edges `P→A`, `P→B`, `Q→B`, committed node set `{P}`. -/
def scenarioC5 : SubjectLog :=
  ⟨"s", [⟨"P", "A"⟩, ⟨"P", "B"⟩, ⟨"Q", "B"⟩],
   [⟨"P", none, none, none, none, none, none⟩], []⟩

/-- Counterexample state for C1: a node with key `Bar` is committed and the
frontier holds the trailing-slash entry `wiki/Bar/`, whose own key is the
empty string but which completes to the url of the committed node. -/
def cexC1 : SubjectLog :=
  ⟨"s", [], [⟨"Bar", none, none, none, none, none, none⟩], ["wiki/Bar/"]⟩

/-- Witness state for C1: key `A` committed, frontier `[A, B]`. -/
def witC1 : SubjectLog :=
  ⟨"s", [], [⟨"A", none, none, none, none, none, none⟩], ["A", "B"]⟩

/-- Counterexample state for C2: the same url added twice with the
no-download flag. -/
def cexC2 : SubjectLog :=
  ((SubjectLog.init "s").add_url "A" false none none).add_url "A" false none none

/-- Counterexample start state for C4: empty node table, frontier already
holding the trailing-slash entry `wiki/Foo/`. -/
def cexC4 : SubjectLog := ⟨"s", [], [], ["wiki/Foo/"]⟩

/-- The url whose fetch fails in the C4 counterexample. -/
def cexC4Url : String := "https://en.wikipedia.org/wiki/Foo"

/-- Log for C10: `a/Tree` committed as a node via `add_url`, with the
distinct url `b/Tree` (same key) waiting in the frontier. -/
def c10Log : SubjectLog :=
  { (SubjectLog.init "s").add_url "a/Tree" false none none with unexplored := ["b/Tree"] }

/-- Witness state for C8: a `Crampy` bandit whose winner is already arm 1. -/
def witC8State : CrampyState := ⟨(⟨0, 0⟩, ⟨0, 0⟩), some 1, none⟩

/-- Witness operation sequence for C8. -/
def witC8Ops : List CrampyOp := [CrampyOp.pick 0, CrampyOp.rew 3, CrampyOp.act 1]

/-- A survivor returned by the `pop` scan is a frontier entry whose key is
not among the node keys. -/
theorem popAux_some_spec (keys : List String) :
    ∀ (l : List String) (e : String) (rest : List String),
      popAux keys l = some (e, rest) → e ∈ l ∧ urlkey e ∉ keys := by
  intro l
  induction l with
  | nil => intro e rest h; simp [popAux] at h
  | cons x xs ih =>
      intro e rest h
      by_cases hx : urlkey x ∈ keys
      · rw [popAux, if_pos hx] at h
        rcases ih e rest h with ⟨h1, h2⟩
        exact ⟨List.mem_cons_of_mem _ h1, h2⟩
      · rw [popAux, if_neg hx] at h
        rcases Option.some.inj h with h3
        rcases Prod.mk.injEq .. ▸ h3 with ⟨rfl, rfl⟩
        exact ⟨List.mem_cons_self _ _, hx⟩

/-- The `pop` scan is exhausted exactly when every frontier entry's key is
already a node key. -/
theorem popAux_none_iff (keys l : List String) :
    popAux keys l = none ↔ ∀ e ∈ l, urlkey e ∈ keys := by
  induction l with
  | nil => simp [popAux]
  | cons x xs ih =>
      by_cases hx : urlkey x ∈ keys
      · rw [popAux, if_pos hx, ih]
        constructor
        · intro h e he
          rcases List.mem_cons.mp he with rfl | he
          · exact hx
          · exact h e he
        · intro h e he
          exact h e (List.mem_cons_of_mem _ he)
      · rw [popAux, if_neg hx]
        constructor
        · intro h; exact absurd h (by simp)
        · intro h; exact absurd (h x (List.mem_cons_self x xs)) hx

/-- `add_url` appends exactly the key of the added url to the node index,
with or without the download flag, fetch succeeding or not. -/
theorem nodeKeys_add_url (log : SubjectLog) (url : String) (flag : Bool)
    (est : Option Int) (fetch : Option Page) :
    nodeKeys (log.add_url url flag est fetch) = nodeKeys log ++ [urlkey url] := by
  cases flag <;> cases fetch <;>
    simp [SubjectLog.add_url, SubjectLog.download, nodeKeys]

/-- Membership characterisation of the seen-accumulating dedup. -/
theorem mem_firstDedupAux (a : String) :
    ∀ (l seen : List String), a ∈ firstDedupAux seen l ↔ a ∈ l ∧ a ∉ seen := by
  intro l
  induction l with
  | nil => intro seen; simp [firstDedupAux]
  | cons x xs ih =>
      intro seen
      by_cases hx : x ∈ seen
      · rw [firstDedupAux, if_pos hx, ih]
        constructor
        · rintro ⟨h1, h2⟩; exact ⟨List.mem_cons_of_mem _ h1, h2⟩
        · rintro ⟨h1, h2⟩
          rcases List.mem_cons.mp h1 with rfl | h1
          · exact absurd hx h2
          · exact ⟨h1, h2⟩
      · rw [firstDedupAux, if_neg hx]
        constructor
        · intro h
          rcases List.mem_cons.mp h with rfl | h
          · exact ⟨List.mem_cons_self _ _, hx⟩
          · rcases (ih (x :: seen)).mp h with ⟨h1, h2⟩
            exact ⟨List.mem_cons_of_mem _ h1,
              fun hs => h2 (List.mem_cons_of_mem _ hs)⟩
        · rintro ⟨h1, h2⟩
          rcases List.mem_cons.mp h1 with rfl | h1
          · exact List.mem_cons_self _ _
          · by_cases hax : a = x
            · exact hax ▸ List.mem_cons_self _ _
            · exact List.mem_cons_of_mem _ ((ih (x :: seen)).mpr
                ⟨h1, fun hs => (List.mem_cons.mp hs).elim hax h2⟩)

/-- Dedup preserves membership. -/
theorem mem_firstDedup (a : String) (l : List String) :
    a ∈ firstDedup l ↔ a ∈ l := by
  rw [firstDedup, mem_firstDedupAux]
  simp

/-- Membership characterisation of the insertion step. -/
theorem mem_insertLe {α : Type} (le : α → α → Bool) (x a : α) :
    ∀ l : List α, a ∈ insertLe le x l ↔ a = x ∨ a ∈ l := by
  intro l
  induction l with
  | nil => simp [insertLe]
  | cons y ys ih =>
      by_cases h : le x y
      · rw [insertLe, if_pos h]
        simp
      · rw [insertLe, if_neg h]
        rw [List.mem_cons, ih, List.mem_cons]
        tauto

/-- Insertion sort preserves membership. -/
theorem mem_isort {α : Type} (le : α → α → Bool) (a : α) :
    ∀ l : List α, a ∈ isort le l ↔ a ∈ l := by
  intro l
  induction l with
  | nil => simp [isort]
  | cons x xs ih =>
      rw [isort, mem_insertLe, ih, List.mem_cons]

/-- Inserting with the descending-count comparator preserves the
descending-count pairwise invariant. -/
theorem pairwise_insertLe_cntGe (x : String × Nat) :
    ∀ l : List (String × Nat), l.Pairwise (fun a b => b.2 ≤ a.2) →
      (insertLe cntGe x l).Pairwise (fun a b => b.2 ≤ a.2) := by
  intro l
  induction l with
  | nil => intro _; simp [insertLe]
  | cons y ys ih =>
      intro hp
      rcases List.pairwise_cons.mp hp with ⟨hy, hys⟩
      by_cases h : y.2 ≤ x.2
      · rw [insertLe, if_pos (by simp [cntGe, h])]
        refine List.pairwise_cons.mpr ⟨?_, hp⟩
        intro b hb
        rcases List.mem_cons.mp hb with rfl | hb
        · exact h
        · exact le_trans (hy b hb) h
      · rw [insertLe, if_neg (by simp [cntGe, h])]
        refine List.pairwise_cons.mpr ⟨?_, ih hys⟩
        intro b hb
        rcases (mem_insertLe cntGe x b ys).mp hb with rfl | hb
        · exact le_of_lt (Nat.lt_of_not_le h)
        · exact hy b hb

/-- The count-descending insertion sort produces a descending list. -/
theorem pairwise_isort_cntGe :
    ∀ l : List (String × Nat), (isort cntGe l).Pairwise (fun a b => b.2 ≤ a.2) := by
  intro l
  induction l with
  | nil => simp [isort]
  | cons x xs ih => exact pairwise_insertLe_cntGe x _ ih

/-- The head of a list is a member of it. -/
theorem head_mem_of_head_eq {α : Type} {l : List α} {p : α}
    (h : l.head? = some p) : p ∈ l := by
  cases l with
  | nil => cases h
  | cons x xs =>
      rcases Option.some.inj h with rfl
      exact List.mem_cons_self _ _

/-- In a descending list the head bounds every member's count. -/
theorem head_count_max {l : List (String × Nat)}
    (hp : l.Pairwise (fun a b => b.2 ≤ a.2)) {p : String × Nat}
    (h : l.head? = some p) : ∀ q ∈ l, q.2 ≤ p.2 := by
  cases l with
  | nil => cases h
  | cons x xs =>
      rcases Option.some.inj h with rfl
      intro q hq
      rcases List.mem_cons.mp hq with rfl | hq
      · exact le_refl _
      · exact (List.pairwise_cons.mp hp).1 q hq

/-- Every sibling of a url is the raw target of some logged edge. -/
theorem siblings_are_targets (log : SubjectLog) (url t : String)
    (h : t ∈ siblingsOf log url) : ∃ e ∈ log.edges, e.target = t := by
  rw [siblingsOf, mem_firstDedup] at h
  rcases List.mem_flatMap.mp h with ⟨p, _, ht⟩
  rcases List.mem_map.mp ht with ⟨e, he, rfl⟩
  exact ⟨e, (List.mem_filter.mp he).1, rfl⟩

/-- For a target in the sibling set, the in-degree counted over the merged
(restricted) edge set agrees with the in-degree over the full edge set. -/
theorem matched_count_eq (log : SubjectLog) (sibs : List String) (t : String)
    (ht : t ∈ sibs) :
    ((matchedEdges log sibs).filter (fun e => e.target == t)).length
      = targetCount log t := by
  rw [matchedEdges, targetCount, List.filter_filter]
  congr 1
  apply List.filter_congr
  intro e _
  by_cases h : e.target = t
  · simp [h, ht]
  · simp [h]

/-- A target string occurs among the merged edges' targets exactly when it
is a sibling that some edge points at. -/
theorem mem_matched_targets (log : SubjectLog) (sibs : List String) (t : String) :
    t ∈ (matchedEdges log sibs).map (fun e => e.target) ↔
      t ∈ sibs ∧ ∃ e ∈ log.edges, e.target = t := by
  constructor
  · intro h
    rcases List.mem_map.mp h with ⟨e, he, rfl⟩
    rcases List.mem_filter.mp he with ⟨h1, h2⟩
    refine ⟨?_, e, h1, rfl⟩
    simpa using h2
  · rintro ⟨h1, e, h2, rfl⟩
    exact List.mem_map.mpr ⟨e, List.mem_filter.mpr ⟨h2, by simpa using h1⟩, rfl⟩

/-- C1 (counterexample): the claim fails as stated.  With a node committed
under key `Bar` and the frontier entry `wiki/Bar/` (whose own key is the
empty string, because the split on `/` ends in an empty segment), `pop`
returns the completed url `https://en.wikipedia.org/wiki/Bar`, whose
normalized key `Bar` is already present in the node table. -/
theorem pop_reemits_committed_key_cex :
    cexC1.pop = some ("https://en.wikipedia.org/wiki/Bar",
      { cexC1 with unexplored := [] }) ∧
    urlkey "https://en.wikipedia.org/wiki/Bar" ∈ nodeKeys cexC1 := by
  decide

/-- C1 (amended): every url returned by `pop` is the completion of some
frontier entry whose own normalized key is not present in the committed
node table; since `complete_url` can change the key (it trims trailing
slashes before completing), the returned url's own key may nevertheless be
committed, as the counterexample shows. -/
theorem pop_survivor_key_unvisited (log : SubjectLog) (u : String)
    (log2 : SubjectLog) (h : log.pop = some (u, log2)) :
    ∃ e, e ∈ log.unexplored ∧ u = complete_url e ∧ urlkey e ∉ nodeKeys log := by
  rw [SubjectLog.pop] at h
  cases hap : popAux (nodeKeys log) log.unexplored with
  | none => rw [hap] at h; cases h
  | some pr =>
      obtain ⟨e, rest⟩ := pr
      rw [hap] at h
      rcases popAux_some_spec (nodeKeys log) log.unexplored e rest hap with ⟨h1, h2⟩
      refine ⟨e, h1, ?_, h2⟩
      rcases Option.some.inj h with h3
      exact ((Prod.mk.injEq _ _ _ _).mp h3).1.symm

/-- C1 (witness): on the state with key `A` committed and frontier `[A, B]`,
`pop` returns `B`, which is the completion of the unvisited entry `B`. -/
theorem pop_survivor_key_unvisited_witness :
    ∃ e, e ∈ witC1.unexplored ∧ "B" = complete_url e ∧ urlkey e ∉ nodeKeys witC1 :=
  pop_survivor_key_unvisited witC1 "B" { witC1 with unexplored := [] } (by decide)

/-- C2 (counterexample): the claim fails as stated.  Adding the same url
twice commits two rows under the key `A`: `add_url` appends
unconditionally, enforcing no uniqueness. -/
theorem add_url_duplicate_key_cex :
    nodeKeys cexC2 = ["A", "A"] ∧ ¬ (nodeKeys cexC2).Nodup := by
  decide

/-- C2 (amended): for every sequence of `add_url` calls starting from an
empty log in which each added url's key is not yet committed (the caller
obligation the spec states), the node table keys are pairwise distinct. -/
theorem guarded_add_url_nodup_keys (log : SubjectLog) (h : GuardedAdds log) :
    (nodeKeys log).Nodup := by
  induction h with
  | init s => simp [SubjectLog.init, nodeKeys]
  | step log url flag est fetch _ hnot ih =>
      rw [nodeKeys_add_url]
      simp only [List.nodup_append, List.nodup_cons, List.nodup_nil,
        List.disjoint_singleton]
      exact ⟨ih, by simp, by simpa using hnot⟩

/-- C2 (witness): one guarded `add_url` call from the empty log yields a
duplicate-free node index. -/
theorem guarded_add_url_nodup_keys_witness :
    (nodeKeys ((SubjectLog.init "s").add_url "A" false none none)).Nodup :=
  guarded_add_url_nodup_keys _
    (GuardedAdds.step (SubjectLog.init "s") "A" false none none
      (GuardedAdds.init "s") (by decide))

/-- C3: `pop` signals `EmptyQueue` (modelled as `none`) exactly when every
frontier entry's key is already committed, and on the scenario log (node
table holding exactly the key of `A`, frontier `[A, B, A, C]`) successive
calls return `B`, then `C`, and then signal `EmptyQueue`. -/
theorem pop_empty_iff_frontier_exhausted :
    (∀ log : SubjectLog, log.pop = none ↔ allVisited log) ∧
    scenarioC3.pop = some ("B", { scenarioC3 with unexplored := ["A", "C"] }) ∧
    ({ scenarioC3 with unexplored := ["A", "C"] }).pop
      = some ("C", { scenarioC3 with unexplored := [] }) ∧
    ({ scenarioC3 with unexplored := [] }).pop = none := by
  refine ⟨?_, by decide, by decide, by decide⟩
  intro log
  constructor
  · intro h
    cases hap : popAux (nodeKeys log) log.unexplored with
    | none => exact (popAux_none_iff _ _).mp hap
    | some pr =>
        obtain ⟨e, rest⟩ := pr
        rw [SubjectLog.pop, hap] at h
        cases h
  · intro h
    rw [SubjectLog.pop, (popAux_none_iff (nodeKeys log) log.unexplored).mpr h]

/-- C4 (counterexample): the pop clause of the claim fails as stated.
Starting from an empty node table with `wiki/Foo/` already in the frontier,
a failed fetch of `https://en.wikipedia.org/wiki/Foo` commits the empty
node under key `Foo`, yet the next `pop` emits exactly that url again: the
frontier entry `wiki/Foo/` has key `""`, escapes the dedup scan, and
completes to the same url string. -/
theorem failed_fetch_url_reemitted_cex :
    urlkey cexC4Url ∈ nodeKeys (cexC4.add_url cexC4Url true none none) ∧
    (cexC4.add_url cexC4Url true none none).pop
      = some (cexC4Url,
        ⟨"s", [], [⟨"Foo", none, none, none, none, none, none⟩], []⟩) := by
  decide

/-- C4 (amended): when the fetch fails during `add_url url true`, a node is
still committed under `urlkey url` with every optional field absent, no
edges are added, the frontier is unchanged (and `add_url` is total: the
blanket `except` lets no exception escape); afterwards `pop` never emits a
frontier entry whose key equals `urlkey url` — though, as the
counterexample shows, an entry with a different key may still complete to
the same url string. -/
theorem add_url_failed_fetch_state (log : SubjectLog) (url : String)
    (est : Option Int) :
    (log.add_url url true est none).nodes
        = log.nodes ++ [⟨urlkey url, none, none, none, none, none, none⟩] ∧
    (log.add_url url true est none).edges = log.edges ∧
    (log.add_url url true est none).unexplored = log.unexplored ∧
    ∀ u log2, (log.add_url url true est none).pop = some (u, log2) →
      ∃ e, e ∈ log.unexplored ∧ u = complete_url e ∧ urlkey e ≠ urlkey url := by
  refine ⟨by simp [SubjectLog.add_url, SubjectLog.download],
    by simp [SubjectLog.add_url, SubjectLog.download],
    by simp [SubjectLog.add_url, SubjectLog.download], ?_⟩
  intro u log2 hpop
  rcases pop_survivor_key_unvisited _ u log2 hpop with ⟨e, he, hu, hk⟩
  rw [show (log.add_url url true est none).unexplored = log.unexplored from
    by simp [SubjectLog.add_url, SubjectLog.download]] at he
  refine ⟨e, he, hu, fun heq => hk ?_⟩
  rw [nodeKeys_add_url, heq]
  exact List.mem_append_right _ (List.mem_cons_self _ _)

/-- C5: whenever `pick_sibling` returns a url, it is the completed form of a
sibling of the query url (a target of an edge leaving some parent of the
query) whose key is not committed in the node table, and its in-degree is
maximal among all such uncommitted siblings; on the scenario graph
`P→A, P→B, Q→B` with node set `{P}`, `pick_sibling A` returns `B` (see the
witness). -/
theorem pick_sibling_max_indegree (log : SubjectLog) (url u : String)
    (h : log.pick_sibling url = some u) :
    ∃ t, u = complete_url t ∧ t ∈ siblingsOf log url ∧
      urlkey t ∉ (nodeKeys log).map urlkey ∧
      ∀ s, s ∈ siblingsOf log url → urlkey s ∉ (nodeKeys log).map urlkey →
        targetCount log s ≤ targetCount log t := by
  rw [SubjectLog.pick_sibling] at h
  rcases Option.map_eq_some'.mp h with ⟨p, hhead, hu⟩
  have hpairwise :
      ((isort cntGe (groupCounts log (siblingsOf log url))).filter
        (fun q => !(((nodeKeys log).map urlkey).contains (urlkey q.1)))).Pairwise
        (fun a b => b.2 ≤ a.2) :=
    List.Pairwise.filter _ (pairwise_isort_cntGe _)
  have hmemdrop := head_mem_of_head_eq hhead
  rcases List.mem_filter.mp hmemdrop with ⟨hmemsort, hdropped⟩
  have hdropped2 : urlkey p.1 ∉ (nodeKeys log).map urlkey := by
    simpa using hdropped
  have hmemgc := (mem_isort cntGe p _).mp hmemsort
  rw [groupCounts] at hmemgc
  rcases List.mem_map.mp hmemgc with ⟨t, htmem, hpt⟩
  have htmem2 : t ∈ (matchedEdges log (siblingsOf log url)).map
      (fun e => e.target) := by
    have := (mem_isort strLe t _).mp htmem
    exact (mem_firstDedup t _).mp this
  rcases (mem_matched_targets log (siblingsOf log url) t).mp htmem2 with ⟨hts, _⟩
  have hp1 : p.1 = t := by rw [← hpt]
  have hp2 : p.2 = targetCount log t := by
    rw [← hpt]
    exact matched_count_eq log (siblingsOf log url) t hts
  refine ⟨t, by rw [← hu, hp1], hts, hp1 ▸ hdropped2, ?_⟩
  intro s hs hsnot
  -- the pair for s also appears in the dropped list, so its count is
  -- bounded by the head's count
  have hsmem : s ∈ (matchedEdges log (siblingsOf log url)).map
      (fun e => e.target) :=
    (mem_matched_targets log (siblingsOf log url) s).mpr
      ⟨hs, siblings_are_targets log url s hs⟩
  have hspair :
      (s, ((matchedEdges log (siblingsOf log url)).filter
        (fun e => e.target == s)).length) ∈ groupCounts log (siblingsOf log url) := by
    rw [groupCounts]
    refine List.mem_map.mpr ⟨s, ?_, rfl⟩
    exact (mem_isort strLe s _).mpr ((mem_firstDedup s _).mpr hsmem)
  have hspair2 :
      (s, ((matchedEdges log (siblingsOf log url)).filter
        (fun e => e.target == s)).length) ∈
        (isort cntGe (groupCounts log (siblingsOf log url))).filter
          (fun q => !(((nodeKeys log).map urlkey).contains (urlkey q.1))) := by
    refine List.mem_filter.mpr ⟨(mem_isort cntGe _ _).mpr hspair, ?_⟩
    simpa using hsnot
  have hbound := head_count_max hpairwise hhead _ hspair2
  rw [matched_count_eq log (siblingsOf log url) s hs] at hbound
  rw [← hp2]
  exact hbound

/-- C5 (witness): the scenario graph `P→A, P→B, Q→B` with committed node
set `{P}`: `pick_sibling A` returns `B`, and `B` satisfies the maximality
property. -/
theorem pick_sibling_max_indegree_witness :
    scenarioC5.pick_sibling "A" = some "B" ∧
    (∃ t, "B" = complete_url t ∧ t ∈ siblingsOf scenarioC5 "A" ∧
      urlkey t ∉ (nodeKeys scenarioC5).map urlkey ∧
      ∀ s, s ∈ siblingsOf scenarioC5 "A" →
        urlkey s ∉ (nodeKeys scenarioC5).map urlkey →
        targetCount scenarioC5 s ≤ targetCount scenarioC5 t) :=
  ⟨by decide, pick_sibling_max_indegree scenarioC5 "A" "B" (by decide)⟩

/-- C6 (code bug): in both two-arm epsilon-greedy policies the exploration
branch evaluates `np.random.randint(0,1)`, which samples from the
half-open interval `[0,1)` and therefore always returns arm 0 — for no
random draw does exploration select arm 1 (the sibling class `Crampy`
correctly uses `randint(0,2)`, and the spec says "pick uniformly at
random", so the bound is a slip). -/
theorem epsilon_greedy_exploration_always_arm0 (est0 est1 eps r : Rat)
    (d : Nat) (h : ¬ r > eps) :
    Lefty.pick_arm est0 eps r d = 0 ∧ Genealogist.pick_arm est0 est1 eps r d = 0 := by
  rw [Lefty.pick_arm, Genealogist.pick_arm, if_neg h, if_neg h]
  simp [randint, Nat.mod_one]

/-- C6 (witness): with epsilon 1 and draw 0 the exploration branch is
taken and both policies return arm 0 regardless of the integer draw. -/
theorem epsilon_greedy_exploration_always_arm0_witness :
    Lefty.pick_arm 1 1 0 5 = 0 ∧ Genealogist.pick_arm 1 2 1 0 5 = 0 :=
  epsilon_greedy_exploration_always_arm0 1 2 1 0 5 (by decide)

/-- C7 (counterexample): the claim fails as stated for the Classifier arm:
`Classifier._evaluate` wraps neither oracle call in a handler, so a
`PropsFetchError` from the relevance oracle or from the size probe
propagates out of the evaluation instead of contributing zero. -/
theorem classifier_propagates_failure_cex :
    Classifier.evaluate (fun q => q) (Except.error PropsFetchError.mk)
        (Except.ok 0) = Except.error PropsFetchError.mk ∧
    Classifier.evaluate (fun q => q) (Except.ok 0)
        (Except.error PropsFetchError.mk) = Except.error PropsFetchError.mk :=
  ⟨rfl, rfl⟩

/-- C7 (amended): only the Connector arm treats a failed SizeProbe lookup
as a neutral zero contribution and completes its evaluation; in the
Classifier arm a `PropsFetchError` from either feature lookup propagates
out of `_evaluate`. -/
theorem size_probe_failure_neutral_connector_only (net : Rat × Rat → Rat × Rat)
    (link v : Rat) (e : PropsFetchError) (s : Except PropsFetchError Rat) :
    Connector.evaluate net link (Except.error e) = net (link, 0) ∧
    Connector.evaluate net link (Except.ok v) = net (link, v) ∧
    Classifier.evaluate net (Except.error e) s = Except.error e ∧
    Classifier.evaluate net (Except.ok v) (Except.error e) = Except.error e :=
  ⟨rfl, rfl, rfl, rfl⟩

/-- One `Crampy.pick_arm` call from a committed state returns the winner
and leaves it committed. -/
theorem crampy_pick_preserves (st : CrampyState) (w : Nat)
    (h : st.winner = some w) (d : Nat) :
    (Crampy.pick_arm st d).1 = w ∧ (Crampy.pick_arm st d).2.winner = some w := by
  rw [Crampy.pick_arm, h]
  exact ⟨rfl, rfl⟩

/-- Each of the three entry points preserves a committed winner. -/
theorem crampy_step_preserves (st : CrampyState) (w : Nat)
    (h : st.winner = some w) :
    ∀ op : CrampyOp, (op.apply st).winner = some w := by
  intro op
  cases op with
  | pick d => exact (crampy_pick_preserves st w h d).2
  | act d =>
      show (Crampy.action st d).winner = some w
      rw [Crampy.action]
      exact (crampy_pick_preserves st w h d).2
  | rew x =>
      show (Crampy.reward st x).winner = some w
      rw [Crampy.reward]
      rcases hca : st.current_arm with _ | n
      · exact h
      · cases n
        · exact h
        · exact h

/-- C8: once `winner` is committed to an arm index, no subsequent sequence
of `pick_arm`, `action` and `reward` calls ever changes it, and every
subsequent `pick_arm` returns exactly that winner. -/
theorem crampy_winner_permanent (st : CrampyState) (w : Nat)
    (ops : List CrampyOp) (d : Nat) (h : st.winner = some w) :
    (runOps st ops).winner = some w ∧ (Crampy.pick_arm (runOps st ops) d).1 = w := by
  induction ops generalizing st with
  | nil => exact ⟨h, (crampy_pick_preserves st w h d).1⟩
  | cons op ops ih =>
      rw [runOps]
      exact ih (op.apply st) (crampy_step_preserves st w h op)

/-- C8 (witness): from a state committed to arm 1, the sequence pick,
reward, action leaves the winner at 1 and a further `pick_arm` returns 1. -/
theorem crampy_winner_permanent_witness :
    (runOps witC8State witC8Ops).winner = some 1 ∧
    (Crampy.pick_arm (runOps witC8State witC8Ops) 7).1 = 1 :=
  crampy_winner_permanent witC8State 1 witC8Ops 7 rfl

/-- C9: `Crampy.__init__` references the class `LinearArm`, which the arms
module does not define, so construction fails by name resolution for every
argument set; moreover no class of the arms module defines the attributes
`runs` or `mean` that `Crampy.pick_arm` reads on its arms, so any call
evaluating them fails as well. -/
theorem crampy_missing_linear_arm :
    (∀ kw : List (String × Int), crampyConstruct kw = Except.error "AttributeError") ∧
    "LinearArm" ∈ crampyInitArmClasses ∧
    "LinearArm" ∉ armsModuleNames ∧
    (armsModuleNames.all (fun c =>
      crampyPickArmAttrReads.all (fun a => !(armClassAttrs c).contains a)) = true) :=
  ⟨fun _ => rfl, by decide, by decide, by decide⟩

/-- C10: `urlkey` is not injective — `a/Tree` and `b/Tree` differ only
before the last slash and share the key `Tree`, and `x/Tree_y` and
`x/Tree y` differ only by underscore versus space in the last segment and
share a key — and once `a/Tree` is committed as a node, the distinct url
`b/Tree` waiting in the frontier is treated as visited: `pop` skips it and
signals `EmptyQueue`, never emitting it. -/
theorem urlkey_collision_blocks_pop :
    urlkey "a/Tree" = urlkey "b/Tree" ∧ "a/Tree" ≠ "b/Tree" ∧
    urlkey "x/Tree_y" = urlkey "x/Tree y" ∧ "x/Tree_y" ≠ "x/Tree y" ∧
    urlkey "a/Tree" ∈ nodeKeys c10Log ∧ c10Log.unexplored = ["b/Tree"] ∧
    c10Log.pop = none := by
  decide
